import Mathlib

/-!
Verification of the Wikidata harvesting pipeline (src/mapisse/data/wikidata.py).

The development shallowly embeds the data-acquisition core:

* `executeSparql` embeds `_execute_sparql`, the retrying query executor.
  The network is abstracted as an environment `env : Nat -> Outcome` giving
  the outcome of each attempt (attempt `i` happens when the retry counter
  equals `i`, since the counter increases by exactly one per failed attempt).
  The trace records every `time.sleep` duration in order, and the number of
  attempts made.
* `parseCoordinates` embeds `_parse_coordinates`, including the exact
  behaviour of `re.match(r"Point\(([-\d.]+)\s+([-\d.]+)\)", s)` (anchored at
  the start only; the character classes are disjoint, so the greedy match is
  maximal-munch and needs no backtracking) and of Python `float()` on tokens
  drawn from the class `[-\d.]`.  Numeric values are represented as rationals.
  Digits are modelled as ASCII digits (Python's `\d`/`isdigit` also accept
  other Unicode digits; no claim below depends on non-ASCII input).
* `isQid` embeds `_is_qid`; strings are handled through their character
  lists (`label[1:]` is the tail, `.replace("-", "")` is a filter).
* `normalizeRow`/`normalizeRows` embed the per-row normalization loop that
  both `fetch_notable_paintings_batch` and `fetch_museum_paintings_batch`
  perform on the executor's raw result rows (the two loop bodies in the
  source are textually identical).
* `strategy1` embeds the phase-1 pagination loop of `fetch_all_artworks`
  (offset 0, step `BATCH_SIZE = 200`, safety cap 2000, stop on empty batch
  or exception); `strategy2` embeds the phase-2 fixed-offset sampling loop.
* `PolarsUniqueAny` embeds the documented contract of
  `polars.DataFrame.unique(subset=key)` with its default `keep="any"` and
  `maintain_order=False`: the output holds rows of the input, one per
  identity key, with no guarantee of which duplicate survives nor of order.
* `FetchAllArtworksOutcome` embeds the tail of `fetch_all_artworks`: the
  empty working set yields the fixed 8-column empty frame, otherwise the
  frame holds a deduplication (in the above contract sense) of the rows.
-/

/-- A raw SPARQL result row: the bindings accessed by the source via
`row.get(name, {}).get("value", default)`.  A `none` field is a missing
binding. -/
structure RawRow where
  painterLabel : Option String
  paintingLabel : Option String
  museumLabel : Option String
  countryLabel : Option String
  coords : Option String
  article : Option String
deriving DecidableEq

/-- Outcome of one HTTP attempt inside `_execute_sparql`: a response with a
status code whose body parses as a results envelope holding `rows`, or a
`requests.exceptions.Timeout`, or another connection-level
`requests.exceptions.RequestException`. -/
inductive Outcome where
  | http (status : Nat) (rows : List RawRow)
  | timeout
  | connError
deriving DecidableEq

/-- Result of `_execute_sparql`: the parsed binding list, or the
`requests.exceptions.RequestException(f"Query failed after {max_retries} retries")`
raised once the retry budget is exhausted (carrying the count). -/
inductive ExecResult where
  | ok (rows : List RawRow)
  | queryFailure (n : Nat)
deriving DecidableEq

/-- Observable behaviour of one `_execute_sparql` call: its result, the
durations of its `time.sleep` calls in order, and how many HTTP attempts
it made. -/
structure ExecTrace where
  result : ExecResult
  sleeps : List Nat
  attempts : Nat
deriving DecidableEq

/-- `RATE_LIMIT_RETRY_SLEEP = 30` from `config.py`. -/
def RATE_LIMIT_RETRY_SLEEP : Nat := 30

/-- `MAX_RETRIES = 5` from `wikidata.py`. -/
def MAX_RETRIES : Nat := 5

/-- The body of the `while retries < max_retries` loop of `_execute_sparql`,
with `fuel = max_retries - retries` so that the loop guard is `0 < fuel`.

Branches, in source order:
* status 429: sleep the fixed `RATE_LIMIT_RETRY_SLEEP`, increment, continue;
* status 500/502/503/504: increment, sleep `RATE_LIMIT_RETRY_SLEEP * retries`
  (with the incremented counter), continue;
* any other 4xx/5xx status: `response.raise_for_status()` raises
  `requests.exceptions.HTTPError`, which is a subclass of
  `requests.exceptions.RequestException`, so it is caught by the generic
  `except requests.exceptions.RequestException` handler further down the
  `try` block: increment, sleep `RATE_LIMIT_RETRY_SLEEP * retries`, continue
  (the executor does NOT fail immediately on such statuses);
* any status below 400 (`raise_for_status` raises only for 4xx/5xx): the
  body is parsed and the bindings returned;
* timeout / connection error: increment, sleep
  `RATE_LIMIT_RETRY_SLEEP * retries`, continue. -/
def execLoop (env : Nat → Outcome) : Nat → Nat → ExecTrace
  | 0, retries => ⟨ExecResult.queryFailure retries, [], retries⟩
  | fuel+1, retries =>
    match env retries with
    | Outcome.http status rows =>
      if status = 429 then
        ⟨(execLoop env fuel (retries+1)).result,
         RATE_LIMIT_RETRY_SLEEP :: (execLoop env fuel (retries+1)).sleeps,
         (execLoop env fuel (retries+1)).attempts⟩
      else if status = 500 ∨ status = 502 ∨ status = 503 ∨ status = 504 then
        ⟨(execLoop env fuel (retries+1)).result,
         RATE_LIMIT_RETRY_SLEEP * (retries+1) :: (execLoop env fuel (retries+1)).sleeps,
         (execLoop env fuel (retries+1)).attempts⟩
      else if 400 ≤ status ∧ status < 600 then
        ⟨(execLoop env fuel (retries+1)).result,
         RATE_LIMIT_RETRY_SLEEP * (retries+1) :: (execLoop env fuel (retries+1)).sleeps,
         (execLoop env fuel (retries+1)).attempts⟩
      else
        ⟨ExecResult.ok rows, [], retries+1⟩
    | Outcome.timeout =>
        ⟨(execLoop env fuel (retries+1)).result,
         RATE_LIMIT_RETRY_SLEEP * (retries+1) :: (execLoop env fuel (retries+1)).sleeps,
         (execLoop env fuel (retries+1)).attempts⟩
    | Outcome.connError =>
        ⟨(execLoop env fuel (retries+1)).result,
         RATE_LIMIT_RETRY_SLEEP * (retries+1) :: (execLoop env fuel (retries+1)).sleeps,
         (execLoop env fuel (retries+1)).attempts⟩

/-- `_execute_sparql` for a given attempt environment: run the retry loop
from `retries = 0`. -/
def executeSparql (env : Nat → Outcome) (maxRetries : Nat) : ExecTrace :=
  execLoop env maxRetries 0

/-! ## Result normalization (`_is_qid`, `_parse_coordinates`, the row loops) -/

/-- Python `str.isdigit()` on a character list: nonempty and all digits
(ASCII model; see the header note). -/
def pyIsdigit (cs : List Char) : Bool :=
  !cs.isEmpty && cs.all Char.isDigit

/-- `_is_qid(label)`: `True` for a falsy (empty) label, else
`label.startswith("Q") and label[1:].replace("-", "").isdigit()`, expressed
on the character list (`label[1:]` is the tail, `.replace("-", "")` filters
the hyphens out). -/
def isQid (label : String) : Bool :=
  match label.toList with
  | [] => true
  | c :: rest => c == 'Q' && pyIsdigit (rest.filter (fun x => !(x == '-')))

/-- Membership in the regex character class `[-\d.]`. -/
def pointToken (c : Char) : Bool :=
  c == '-' || c == '.' || c.isDigit

/-- Membership in the regex class `\s` (ASCII portion). -/
def isPySpace (c : Char) : Bool :=
  c == ' ' || c == '\t' || c == '\n' || c == '\r' || c == '\x0b' || c == '\x0c'

/-- Match a literal pattern prefix, returning the remaining input (the
literal `Point\(` part of the regex). -/
def stripPrefixChars : List Char → List Char → Option (List Char)
  | [], cs => some cs
  | _ :: _, [] => none
  | p :: ps, c :: cs => if c == p then stripPrefixChars ps cs else none

/-- The match of `re.match(r"Point\(([-\d.]+)\s+([-\d.]+)\)", s)`, returning
the two captured groups.  `re.match` anchors at the start of `s` only, so
characters after the closing parenthesis are ignored.  The classes `[-\d.]`,
`\s` and `\)` are pairwise disjoint, so the greedy quantifiers reduce to
maximal munch (`takeWhile`/`dropWhile`) with no backtracking. -/
def matchPointGroups (s : String) : Option (List Char × List Char) :=
  match stripPrefixChars (("Point(").toList) (s.toList) with
  | none => none
  | some r0 =>
    let g1 := r0.takeWhile pointToken
    let r1 := r0.dropWhile pointToken
    if g1 = [] then none
    else
      if r1.takeWhile isPySpace = [] then none
      else
        let r2 := r1.dropWhile isPySpace
        let g2 := r2.takeWhile pointToken
        let r3 := r2.dropWhile pointToken
        if g2 = [] then none
        else
          match r3 with
          | d :: _ => if d == ')' then some (g1, g2) else none
          | [] => none

/-- Numeric value of a digit character. -/
def digitVal (c : Char) : Nat := c.toNat - ('0').toNat

/-- Value of a digit string. -/
def digitsToNat (cs : List Char) : Nat :=
  cs.foldl (fun acc c => 10 * acc + digitVal c) 0

/-- Python `float()` restricted to the tokens the regex can capture
(characters from `[-\d.]`): an optional leading minus sign, then digits with
at most one decimal point and at least one digit; anything else raises
`ValueError`, modelled as `none`.  The value `±(i + f / 10^k)` is returned
as the exact rational `± (i * 10^k + f) / 10^k` (the source's IEEE doubles
are modelled as exact decimals). -/
def pyFloatCore (neg : Bool) (body : List Char) : Option ℚ :=
  let intPart := body.takeWhile Char.isDigit
  match body.dropWhile Char.isDigit with
  | [] =>
      if intPart = [] then none
      else
        let m : Int := if neg then -(digitsToNat intPart : Int) else (digitsToNat intPart : Int)
        some (mkRat m 1)
  | d :: fracPart =>
      if d == '.' then
        if fracPart.all Char.isDigit then
          if intPart = [] ∧ fracPart = [] then none
          else
            let mag : Nat := digitsToNat intPart * 10 ^ fracPart.length + digitsToNat fracPart
            let m : Int := if neg then -(mag : Int) else (mag : Int)
            some (mkRat m (10 ^ fracPart.length))
        else none
      else none

/-- The token with its optional leading minus sign peeled off. -/
def pyFloat (cs : List Char) : Option ℚ :=
  if cs.head? == some '-' then pyFloatCore true cs.tail else pyFloatCore false cs

/-- `_parse_coordinates(coord_str)`: `(None, None)` for a falsy input, for a
failed regex match, or for a `ValueError` from `float()`; otherwise
`(lat, lon)` — the second captured group first, then the first. -/
def parseCoordinates (coordStr : Option String) : Option ℚ × Option ℚ :=
  match coordStr with
  | none => (none, none)
  | some s =>
    if s.toList = [] then (none, none)
    else
      match matchPointGroups s with
      | none => (none, none)
      | some (g1, g2) =>
        match pyFloat g1, pyFloat g2 with
        | some lon, some lat => (some lat, some lon)
        | some _, none => (none, none)
        | none, _ => (none, none)

/-- The canonical artwork record appended by the batch-fetch loops. -/
structure ArtworkRecord where
  painter : String
  painting : String
  museum : String
  city : String
  country : String
  lat : Option ℚ
  lon : Option ℚ
  wikipedia_url : String
deriving DecidableEq

/-- One iteration of the row loop shared (verbatim) by
`fetch_notable_paintings_batch` and `fetch_museum_paintings_batch`:
extract the labels with their defaults, skip the row when any of the
painter/painting/museum labels is an untranslated Q-ID, otherwise build the
record with parsed coordinates. -/
def normalizeRow (row : RawRow) : Option ArtworkRecord :=
  let painterLabel := (row.painterLabel).getD ""
  let paintingLabel := (row.paintingLabel).getD ""
  let museumLabel := (row.museumLabel).getD ""
  let countryLabel := (row.countryLabel).getD "Unknown"
  let wikiUrl := (row.article).getD ""
  if isQid painterLabel || isQid paintingLabel || isQid museumLabel then none
  else
    some ⟨painterLabel, paintingLabel, museumLabel, "Unknown", countryLabel,
          (parseCoordinates row.coords).1, (parseCoordinates row.coords).2,
          wikiUrl⟩

/-- The whole row loop: filter and map, preserving order. -/
def normalizeRows (rows : List RawRow) : List ArtworkRecord :=
  rows.filterMap normalizeRow

/-! ## Batch fetching, pagination and orchestration (`fetch_all_artworks`)

The two batch fetchers are abstracted over `fetchRaw : Nat -> ExecResult`,
the outcome of `_execute_sparql` on the strategy's query at a given
`OFFSET` (each call site passes `LIMIT = BATCH_SIZE`).  An
`ExecResult.queryFailure` is the exception `_execute_sparql` raises, which
propagates out of the batch function (`Except.error`). -/

/-- `BATCH_SIZE = 200` from `wikidata.py`. -/
def BATCH_SIZE : Nat := 200

/-- `fetch_notable_paintings_batch(offset, BATCH_SIZE)`: run the strategy-1
query, then the normalization loop on the raw rows. -/
def fetchNotablePaintingsBatch (fetchRaw : Nat → ExecResult) (offset : Nat) :
    Except Nat (List ArtworkRecord) :=
  match fetchRaw offset with
  | ExecResult.ok rows => Except.ok (normalizeRows rows)
  | ExecResult.queryFailure n => Except.error n

/-- `fetch_museum_paintings_batch(offset, BATCH_SIZE)`: the strategy-2 query
followed by the same (textually duplicated) normalization loop. -/
def fetchMuseumPaintingsBatch (fetchRaw : Nat → ExecResult) (offset : Nat) :
    Except Nat (List ArtworkRecord) :=
  match fetchRaw offset with
  | ExecResult.ok rows => Except.ok (normalizeRows rows)
  | ExecResult.queryFailure n => Except.error n

/-- Phase 1 of `fetch_all_artworks`: the `while True` pagination loop.
Per iteration: fetch the batch at the current offset; on an exception,
break; if the (already normalized) batch is empty, break; otherwise extend
the accumulator, advance the offset by `BATCH_SIZE` and break when the
2000-offset safety cap is reached.  The loop runs at most
`2000 / BATCH_SIZE = 10` iterations (offsets 0, 200, ..., 1800), so fuel 10
is exact; the fuel-0 case is unreachable from the initial state.  The
second component counts the fetch requests issued. -/
def strategy1Loop (fetchRaw : Nat → ExecResult) :
    Nat → Nat → List ArtworkRecord → Nat → List ArtworkRecord × Nat
  | 0, _, acc, pages => (acc, pages)
  | fuel+1, offset, acc, pages =>
    match fetchNotablePaintingsBatch fetchRaw offset with
    | Except.error _ => (acc, pages + 1)
    | Except.ok batch =>
      if batch = [] then (acc, pages + 1)
      else if 2000 ≤ offset + BATCH_SIZE then (acc ++ batch, pages + 1)
      else strategy1Loop fetchRaw fuel (offset + BATCH_SIZE) (acc ++ batch) (pages + 1)

/-- Phase 1 from its initial state (`offset = 0`, empty accumulator). -/
def strategy1 (fetchRaw : Nat → ExecResult) : List ArtworkRecord × Nat :=
  strategy1Loop fetchRaw 10 0 [] 0

/-- The sample offsets of phase 2. -/
def SAMPLE_OFFSETS : List Nat := [0, 5000, 10000, 20000, 30000, 50000]

/-- One iteration of the phase-2 `for sample_offset in sample_offsets` loop:
an exception is swallowed (`continue`); a non-empty batch extends the
accumulator (`if batch: all_rows.extend(batch)`). -/
def strategy2Step (fetchRaw : Nat → ExecResult) (acc : List ArtworkRecord)
    (offset : Nat) : List ArtworkRecord :=
  match fetchMuseumPaintingsBatch fetchRaw offset with
  | Except.error _ => acc
  | Except.ok batch => if batch = [] then acc else acc ++ batch

/-- Phase 2: fold over the fixed sample offsets. -/
def strategy2 (fetchRaw : Nat → ExecResult) : List ArtworkRecord :=
  SAMPLE_OFFSETS.foldl (strategy2Step fetchRaw) []

/-- The working set `all_rows` of `fetch_all_artworks` after both phases:
strategy-1 output first, then strategy-2 output. -/
def fetchAllRows (f1 f2 : Nat → ExecResult) : List ArtworkRecord :=
  (strategy1 f1).1 ++ strategy2 f2

/-- The 8 declared columns of the result frame, in declaration order. -/
def schemaCols : List String :=
  ["painter", "painting", "museum", "city", "country", "lat", "lon",
   "wikipedia_url"]

/-- The returned frame: its schema and its rows. -/
structure Dataset where
  columns : List String
  rows : List ArtworkRecord
deriving DecidableEq

/-- The deduplication key `subset=["painter", "painting", "museum"]`. -/
def identityKey (r : ArtworkRecord) : String × String × String :=
  (r.painter, r.painting, r.museum)

/-- The documented contract of `polars.DataFrame.unique(subset=key)` with
the defaults the source uses (`keep="any"`, `maintain_order=False`): every
output row is an input row, output keys are pairwise distinct, and every
input key is represented.  Polars documents `keep="any"` as giving no
guarantee of which duplicate row is kept, and `maintain_order=False` as
giving no guarantee of order, so the output is related, not computed. -/
def PolarsUniqueAny (input output : List ArtworkRecord) : Prop :=
  (∀ r ∈ output, r ∈ input) ∧
  (output.map identityKey).Nodup ∧
  (∀ r ∈ input, ∃ s ∈ output, identityKey s = identityKey r)

instance (input output : List ArtworkRecord) :
    Decidable (PolarsUniqueAny input output) := by
  unfold PolarsUniqueAny; infer_instance

/-- The tail of `fetch_all_artworks`: when the working set is empty, the
empty frame with the declared schema is returned; otherwise the frame built
from the working set is deduplicated with `unique(subset=key)`.  The
possible outcomes form a relation because of the `keep="any"` contract. -/
def FetchAllArtworksOutcome (f1 f2 : Nat → ExecResult) (ds : Dataset) : Prop :=
  (fetchAllRows f1 f2 = [] ∧ ds = ⟨schemaCols, []⟩) ∨
  (fetchAllRows f1 f2 ≠ [] ∧ ds.columns = schemaCols ∧
    PolarsUniqueAny (fetchAllRows f1 f2) ds.rows)

instance (f1 f2 : Nat → ExecResult) (ds : Dataset) :
    Decidable (FetchAllArtworksOutcome f1 f2 ds) := by
  unfold FetchAllArtworksOutcome; infer_instance

/-! ## Spec-side definitions and concrete inputs used by the claims -/

/-- Modelled from the spec: the claimed placeholder pattern `^Q[0-9-]+$` —
the letter `Q` followed by one or more characters, each a digit or a
hyphen, and nothing else. -/
def specQidRe (label : String) : Bool :=
  match label.toList with
  | 'Q' :: rest => !rest.isEmpty && rest.all (fun c => c.isDigit || c == '-')
  | _ => false

/-- The placeholder pattern the code actually implements: an empty label,
or the letter `Q` followed by any number of digits and hyphens of which at
least one character is a digit (`^Q[0-9-]*$` with one or more digits).
Unlike the spec pattern `^Q[0-9-]+$`, a `Q` followed by hyphens alone does
not count. -/
def amendedQid (label : String) : Bool :=
  match label.toList with
  | [] => true
  | c :: rest =>
      c == 'Q' && (rest.all (fun x => x.isDigit || x == '-') && rest.any Char.isDigit)

/-- The sleep rule `_execute_sparql` actually implements for the failed
attempt with (0-based) index `i`: a fixed `RATE_LIMIT_RETRY_SLEEP` for a
429, and `RATE_LIMIT_RETRY_SLEEP * (i+1)` for every other retried
condition — `i+1` being the just-incremented retry counter, which counts
every failed attempt so far of ANY kind, 429s included. -/
def sleepRule (o : Outcome) (i : Nat) : Nat :=
  match o with
  | Outcome.http status _ =>
      if status = 429 then RATE_LIMIT_RETRY_SLEEP
      else RATE_LIMIT_RETRY_SLEEP * (i + 1)
  | _ => RATE_LIMIT_RETRY_SLEEP * (i + 1)

/-- An endpoint that answers every attempt with HTTP 404. -/
def env404 : Nat → Outcome := fun _ => Outcome.http 404 []

/-- An endpoint that answers 429 first, then 503, then succeeds. -/
def env429Then503 : Nat → Outcome := fun n =>
  if n = 0 then Outcome.http 429 []
  else if n = 1 then Outcome.http 503 []
  else Outcome.http 200 []

/-- A raw row whose labels are all untranslated Q-IDs: non-empty raw data
that the normalizer filters away entirely. -/
def rowQidOnly : RawRow :=
  ⟨some ("Q123"), some ("Q456"), some ("Q789"), none, none, none⟩

/-- A strategy environment whose every page is the single all-Q-ID row. -/
def envAllQid : Nat → ExecResult := fun _ => ExecResult.ok [rowQidOnly]

/-- A raw row whose painter label is `"Q-"`: it matches the spec pattern
`^Q[0-9-]+$`, yet `_is_qid` returns `False` for it (no digit survives the
hyphen removal, and `"".isdigit()` is `False`). -/
def rowQHyphen : RawRow :=
  ⟨some ("Q-"), some ("Girl with a Pearl Earring"), some ("Mauritshuis"),
   none, none, none⟩

/-- The record the normalizer builds from `rowQHyphen` (it keeps the row). -/
def recQHyphen : ArtworkRecord :=
  ⟨"Q-", "Girl with a Pearl Earring", "Mauritshuis", "Unknown", "Unknown",
   none, none, ""⟩

/-- A raw row whose museum geometry carries out-of-range coordinates. -/
def rowOutOfRange : RawRow :=
  ⟨some ("Vincent van Gogh"), some ("The Starry Night"),
   some ("Museum of Modern Art"), some ("United States"),
   some ("Point(500 999)"), none⟩

/-- The record the normalizer builds from `rowOutOfRange`: latitude 999,
longitude 500, no range check anywhere in the pipeline. -/
def recOutOfRange : ArtworkRecord :=
  ⟨"Vincent van Gogh", "The Starry Night", "Museum of Modern Art",
   "Unknown", "United States", some (999 : ℚ), some (500 : ℚ), ""⟩

/-- A strategy environment delivering `rowOutOfRange` on the first page and
nothing afterwards. -/
def envOutOfRange : Nat → ExecResult := fun off =>
  if off = 0 then ExecResult.ok [rowOutOfRange] else ExecResult.ok []

/-- A strategy environment delivering no rows at all. -/
def envNoRows : Nat → ExecResult := fun _ => ExecResult.ok []

/-- A raw row with well-formed, in-range coordinates. -/
def rowInRange : RawRow :=
  ⟨some ("Claude Monet"), some ("Impression, Sunrise"),
   some ("Musee Marmottan Monet"), some ("France"),
   some ("Point(2.2 48.8)"),
   some ("https://en.wikipedia.org/wiki/Claude_Monet")⟩

/-- The record the normalizer builds from `rowInRange`. -/
def recInRange : ArtworkRecord :=
  ⟨"Claude Monet", "Impression, Sunrise", "Musee Marmottan Monet",
   "Unknown", "France", some (mkRat 244 5), some (mkRat 11 5),
   "https://en.wikipedia.org/wiki/Claude_Monet"⟩

/-- Two records sharing the identity key (painter, painting, museum) but
differing in other fields — as produced once by each strategy. -/
def recDupA : ArtworkRecord :=
  ⟨"Johannes Vermeer", "Girl with a Pearl Earring", "Mauritshuis",
   "Unknown", "Netherlands", none, none, ""⟩

/-- The strategy-2 twin of `recDupA`: same identity key, different country
and reference link. -/
def recDupB : ArtworkRecord :=
  ⟨"Johannes Vermeer", "Girl with a Pearl Earring", "Mauritshuis",
   "Unknown", "Holland", none, none,
   "https://en.wikipedia.org/wiki/Johannes_Vermeer"⟩

/-! ## Sanity checks of the embedding on concrete inputs -/

example :
    executeSparql (fun _ => Outcome.http 200 []) MAX_RETRIES =
      ⟨ExecResult.ok [], [], 1⟩ := by decide

example :
    executeSparql (fun _ => Outcome.timeout) MAX_RETRIES =
      ⟨ExecResult.queryFailure 5, [30, 60, 90, 120, 150], 5⟩ := by decide

example : isQid ("Q1234") = true := by decide
example : isQid ("Q12-34") = true := by decide
example : isQid ("") = true := by decide
example : isQid ("Mona Lisa") = false := by decide

example : pyFloat (("12.5").toList) = some (mkRat 25 2) := by decide
example : pyFloat (("-4").toList) = some (-4 : ℚ) := by decide
example : pyFloat (("5.").toList) = some (5 : ℚ) := by decide
example : pyFloat ((".5").toList) = some (mkRat 1 2) := by decide
example : pyFloat (("-").toList) = none := by decide
example : pyFloat ((".").toList) = none := by decide
example : pyFloat (("1-2").toList) = none := by decide
example : pyFloat (("1.2.3").toList) = none := by decide

example : parseCoordinates (some ("Point(2.2 48.8)")) =
    (some (mkRat 244 5), some (mkRat 11 5)) := by decide
example : parseCoordinates (some ("POINT(1 2)")) = (none, none) := by decide
example : parseCoordinates (some ("Point(- -)")) = (none, none) := by decide
example : parseCoordinates none = (none, none) := by decide
example : parseCoordinates (some "") = (none, none) := by decide

/-! ## Claim theorems -/

/-- Claim C1 (code bug): on a 404 response the executor does NOT fail
immediately.  `raise_for_status()` raises `HTTPError`, a subclass of
`RequestException`, which the generic handler catches; so with every
attempt answered 404 the executor sleeps 30, 60, 90, 120 and 150 seconds,
makes all 5 attempts, and finally raises the generic
"Query failed after 5 retries" — while the claim (and spec) require
immediate failure after one attempt with no sleep. -/
theorem executor_retries_404_to_exhaustion :
    executeSparql env404 MAX_RETRIES =
      ⟨ExecResult.queryFailure 5, [30, 60, 90, 120, 150], 5⟩ := by decide

/-- Claim C8 (counterexample): a 429 on attempt 1 followed by a 503 on
attempt 2 makes the 503 retry sleep `RATE_LIMIT_RETRY_SLEEP * 2 = 60`
seconds, because the 429 incremented the shared retry counter; the claim
says the first backoff-scaled retry sleeps `cooldown x 1 = 30`. -/
theorem sleep_429_inflates_backoff_counter :
    executeSparql env429Then503 MAX_RETRIES = ⟨ExecResult.ok [], [30, 60], 3⟩ ∧
    (60 : Nat) ≠ RATE_LIMIT_RETRY_SLEEP * 1 := by decide

/-- Claim C2 (counterexample): a page whose RAW batch is non-empty (one
row, all labels Q-IDs) but is entirely filtered away by the normalizer
stops strategy-1 pagination after that single page request — the loop
tests the post-normalization batch (`if not batch: break`), not the raw
one, so it does not continue to the next offset as the claim requires. -/
theorem pagination_stops_on_filtered_page :
    envAllQid 0 = ExecResult.ok [rowQidOnly] ∧
    [rowQidOnly] ≠ ([] : List RawRow) ∧
    normalizeRows [rowQidOnly] = [] ∧
    strategy1 envAllQid = ([], 1) := by decide

/-- Claim C3 (code bug support): the polars `unique(subset=key)` contract
with the source's default `keep="any"` admits keeping either duplicate:
both the strategy-1 record and the distinct strategy-2 record are valid
sole survivors of the same two-record input, so the code does not guarantee
that the first-encountered record is retained. -/
theorem unique_keep_any_admits_either_duplicate :
    PolarsUniqueAny [recDupA, recDupB] [recDupA] ∧
    PolarsUniqueAny [recDupA, recDupB] [recDupB] ∧
    recDupA ≠ recDupB := by decide

/-- Claim C4 (counterexample): the label `"Q-"` matches the spec pattern
`^Q[0-9-]+$`, so the claim says its row is rejected; the code keeps the
row, because after removing the hyphens nothing is left and Python's
`"".isdigit()` is `False`. -/
theorem qid_hyphen_only_label_is_kept :
    specQidRe ("Q-") = true ∧
    normalizeRow rowQHyphen = some recQHyphen ∧
    recQHyphen.painter = "Q-" := by decide

/-- Claim C6 (counterexample): nothing in the pipeline checks coordinate
ranges.  A museum geometry `"Point(500 999)"` flows to the harvested
working set, and the dataset built from it, with `lat = 999 > 90` (and
`lon = 500 > 180`). -/
theorem harvested_latitude_can_exceed_90 :
    fetchAllRows envOutOfRange envNoRows = [recOutOfRange] ∧
    FetchAllArtworksOutcome envOutOfRange envNoRows ⟨schemaCols, [recOutOfRange]⟩ ∧
    recOutOfRange.lat = some (999 : ℚ) ∧
    (90 : ℚ) < 999 ∧
    recOutOfRange.lon = some (500 : ℚ) ∧
    (180 : ℚ) < 500 := by decide

/-! ## General lemmas about the executor -/

/-- Invariant of the retry loop: the attempt count never exceeds the
initial counter plus the fuel, and the result is either a successful row
list or the budget-exhaustion failure carrying `retries + fuel` (the value
the counter holds at exhaustion), in which case exactly that many attempts
were made. -/
theorem execLoop_budget (env : Nat → Outcome) :
    ∀ fuel retries,
      (execLoop env fuel retries).attempts ≤ retries + fuel ∧
      ((∃ rows, (execLoop env fuel retries).result = ExecResult.ok rows) ∨
       ((execLoop env fuel retries).result = ExecResult.queryFailure (retries + fuel) ∧
        (execLoop env fuel retries).attempts = retries + fuel)) := by
  intro fuel
  induction fuel with
  | zero =>
    intro retries
    exact ⟨Nat.le_refl _, Or.inr ⟨rfl, rfl⟩⟩
  | succ n ih =>
    intro retries
    have e : retries + 1 + n = retries + (n + 1) := by omega
    cases henv : env retries with
    | http status rows =>
      simp only [execLoop, henv]
      split_ifs with h1 h2 h3
      · obtain ⟨hle, hres⟩ := ih (retries + 1)
        rw [e] at hle hres
        exact ⟨hle, hres⟩
      · obtain ⟨hle, hres⟩ := ih (retries + 1)
        rw [e] at hle hres
        exact ⟨hle, hres⟩
      · obtain ⟨hle, hres⟩ := ih (retries + 1)
        rw [e] at hle hres
        exact ⟨hle, hres⟩
      · refine ⟨?_, Or.inl ⟨rows, rfl⟩⟩
        show retries + 1 ≤ retries + (n + 1)
        omega
    | timeout =>
      simp only [execLoop, henv]
      obtain ⟨hle, hres⟩ := ih (retries + 1)
      rw [e] at hle hres
      exact ⟨hle, hres⟩
    | connError =>
      simp only [execLoop, henv]
      obtain ⟨hle, hres⟩ := ih (retries + 1)
      rw [e] at hle hres
      exact ⟨hle, hres⟩

/-- Claim C7: for every attempt environment, the executor makes at most 5
attempts, and its one call either returns a parsed row list or raises the
budget-exhaustion `QueryFailure` carrying the attempt count 5 after the
5th failed attempt; the loop cannot run forever.  (The claim's third
allowed outcome — an immediate raise on a non-retryable status — never
occurs, which still satisfies the claimed disjunction; see C1.) -/
theorem executor_retry_budget (env : Nat → Outcome) :
    (executeSparql env MAX_RETRIES).attempts ≤ 5 ∧
    ((∃ rows, (executeSparql env MAX_RETRIES).result = ExecResult.ok rows) ∨
     ((executeSparql env MAX_RETRIES).result = ExecResult.queryFailure 5 ∧
      (executeSparql env MAX_RETRIES).attempts = 5)) := by
  have h := execLoop_budget env 5 0
  simpa [executeSparql, MAX_RETRIES] using h

/-- Every recorded sleep of the retry loop follows `sleepRule`: entry `i`
of the sleep trace (0-based) was produced by the failed attempt with
counter value `retries + i`, sleeping the fixed cooldown for a 429 and
`cooldown * (counter + 1)` for every other retried condition. -/
theorem execLoop_sleep_eq (env : Nat → Outcome) :
    ∀ fuel retries i x,
      (execLoop env fuel retries).sleeps.get? i = some x →
      x = sleepRule (env (retries + i)) (retries + i) := by
  intro fuel
  induction fuel with
  | zero =>
    intro retries i x hx
    simp [execLoop] at hx
  | succ n ih =>
    intro retries i x hx
    have e : ∀ j : Nat, retries + 1 + j = retries + (j + 1) := by omega
    cases henv : env retries with
    | http status rows =>
      simp only [execLoop, henv] at hx
      split_ifs at hx with h1 h2 h3
      · cases i with
        | zero =>
          simp only [List.get?] at hx
          cases hx
          simp [sleepRule, henv, h1]
        | succ j =>
          have hj := ih (retries + 1) j x (by simpa using hx)
          rw [e j] at hj
          exact hj
      · cases i with
        | zero =>
          simp only [List.get?] at hx
          cases hx
          simp [sleepRule, henv, h1]
        | succ j =>
          have hj := ih (retries + 1) j x (by simpa using hx)
          rw [e j] at hj
          exact hj
      · cases i with
        | zero =>
          simp only [List.get?] at hx
          cases hx
          simp [sleepRule, henv, h1]
        | succ j =>
          have hj := ih (retries + 1) j x (by simpa using hx)
          rw [e j] at hj
          exact hj
      · simp at hx
    | timeout =>
      simp only [execLoop, henv] at hx
      cases i with
      | zero =>
        simp only [List.get?] at hx
        cases hx
        simp [sleepRule, henv]
      | succ j =>
        have hj := ih (retries + 1) j x (by simpa using hx)
        rw [e j] at hj
        exact hj
    | connError =>
      simp only [execLoop, henv] at hx
      cases i with
      | zero =>
        simp only [List.get?] at hx
        cases hx
        simp [sleepRule, henv]
      | succ j =>
        have hj := ih (retries + 1) j x (by simpa using hx)
        rw [e j] at hj
        exact hj

/-- Claim C8 (amended): each HTTP 429 sleeps exactly the fixed cooldown of
30 seconds, and each server-error/timeout/connection-error retry sleeps
`cooldown * n` — but `n` is the shared retry counter, which counts ALL
failed attempts so far including 429s (not only the backoff-scaled kinds).
With no intervening 429s, consecutive server errors therefore still sleep
cooldown*1, cooldown*2, cooldown*3, ... -/
theorem executor_sleep_follows_rule (env : Nat → Outcome) (i : Nat)
    (h : i < (executeSparql env MAX_RETRIES).sleeps.length) :
    (executeSparql env MAX_RETRIES).sleeps.get ⟨i, h⟩ = sleepRule (env i) i := by
  have h2 := List.get?_eq_get h
  have h3 := execLoop_sleep_eq env MAX_RETRIES 0 i _ h2
  simpa using h3

/-- Witness for `executor_sleep_follows_rule` at the concrete 429-then-503
environment and index 1 (the 503's sleep, 60 = 30 * 2). -/
theorem executor_sleep_follows_rule_witness :
    (executeSparql env429Then503 MAX_RETRIES).sleeps.get ⟨1, by decide⟩ =
      sleepRule (env429Then503 1) 1 :=
  executor_sleep_follows_rule env429Then503 1 (by decide)

/-! ## General lemmas about the paginator -/

/-- The page-request counter of the pagination loop never decreases. -/
theorem strategy1Loop_pages_mono (f : Nat → ExecResult) :
    ∀ fuel offset acc pages, pages ≤ (strategy1Loop f fuel offset acc pages).2 := by
  intro fuel
  induction fuel with
  | zero =>
    intro offset acc pages
    exact Nat.le_refl _
  | succ n ih =>
    intro offset acc pages
    cases hf : fetchNotablePaintingsBatch f offset with
    | error e =>
      simp only [strategy1Loop, hf]
      exact Nat.le_succ _
    | ok batch =>
      by_cases hb : batch = []
      · simp only [strategy1Loop, hf, if_pos hb]
        exact Nat.le_succ _
      · by_cases hcap : 2000 ≤ offset + BATCH_SIZE
        · simp only [strategy1Loop, hf, if_neg hb, if_pos hcap]
          exact Nat.le_succ _
        · simp only [strategy1Loop, hf, if_neg hb, if_neg hcap]
          exact Nat.le_trans (Nat.le_succ _) (ih (offset + BATCH_SIZE) (acc ++ batch) (pages + 1))

/-- With fuel left, the pagination loop issues at least one more page
request. -/
theorem strategy1Loop_pages_succ_le (f : Nat → ExecResult) :
    ∀ fuel offset acc pages, 1 ≤ fuel →
      pages + 1 ≤ (strategy1Loop f fuel offset acc pages).2 := by
  intro fuel
  cases fuel with
  | zero =>
    intro offset acc pages h
    exact absurd h (by omega)
  | succ n =>
    intro offset acc pages _
    cases hf : fetchNotablePaintingsBatch f offset with
    | error e =>
      simp only [strategy1Loop, hf]
      exact Nat.le_refl _
    | ok batch =>
      by_cases hb : batch = []
      · simp only [strategy1Loop, hf, if_pos hb]
        exact Nat.le_refl _
      · by_cases hcap : 2000 ≤ offset + BATCH_SIZE
        · simp only [strategy1Loop, hf, if_neg hb, if_pos hcap]
          exact Nat.le_refl _
        · simp only [strategy1Loop, hf, if_neg hb, if_neg hcap]
          exact strategy1Loop_pages_mono f n (offset + BATCH_SIZE) (acc ++ batch) (pages + 1)

/-- Along any reachable pagination state (the loop is entered with
`offset = BATCH_SIZE * pages`), a requested page whose normalized batch is
empty is the run's final page request. -/
theorem strategy1Loop_stop_on_empty (f : Nat → ExecResult) :
    ∀ fuel pages acc j rows, pages ≤ j →
      j < (strategy1Loop f fuel (BATCH_SIZE * pages) acc pages).2 →
      f (BATCH_SIZE * j) = ExecResult.ok rows →
      normalizeRows rows = [] →
      (strategy1Loop f fuel (BATCH_SIZE * pages) acc pages).2 = j + 1 := by
  intro fuel
  induction fuel with
  | zero =>
    intro pages acc j rows hpj hj _ _
    have hj2 : j < pages := hj
    omega
  | succ n ih =>
    intro pages acc j rows hpj hj hf hem
    cases hfp : f (BATCH_SIZE * pages) with
    | queryFailure m =>
      have hb : fetchNotablePaintingsBatch f (BATCH_SIZE * pages) = Except.error m := by
        rw [fetchNotablePaintingsBatch, hfp]
      simp only [strategy1Loop, hb] at hj ⊢
      have hj2 : j < pages + 1 := hj
      have hjp : j = pages := by omega
      subst hjp
      exact ExecResult.noConfusion (hf.symm.trans hfp)
    | ok rows0 =>
      have hb : fetchNotablePaintingsBatch f (BATCH_SIZE * pages) =
          Except.ok (normalizeRows rows0) := by
        rw [fetchNotablePaintingsBatch, hfp]
      by_cases hem0 : normalizeRows rows0 = []
      · simp only [strategy1Loop, hb, if_pos hem0] at hj ⊢
        have hj2 : j < pages + 1 := hj
        have hjp : j = pages := by omega
        subst hjp
        rfl
      · by_cases hcap : 2000 ≤ BATCH_SIZE * pages + BATCH_SIZE
        · simp only [strategy1Loop, hb, if_neg hem0, if_pos hcap] at hj ⊢
          have hj2 : j < pages + 1 := hj
          have hjp : j = pages := by omega
          subst hjp
          rfl
        · have e : BATCH_SIZE * pages + BATCH_SIZE = BATCH_SIZE * (pages + 1) := by
            rw [Nat.mul_succ]
          simp only [strategy1Loop, hb, if_neg hem0, if_neg hcap] at hj ⊢
          rw [e] at hj ⊢
          by_cases hjp : j = pages
          · subst hjp
            have he : rows = rows0 := ExecResult.ok.inj (hf.symm.trans hfp)
            rw [he] at hem
            exact absurd hem hem0
          · exact ih (pages + 1) (acc ++ normalizeRows rows0) j rows (by omega) hj hf hem

/-- Along any reachable pagination state with the run's fuel invariant, a
requested page with a non-empty normalized batch and the safety cap still
unreached is followed by another page request. -/
theorem strategy1Loop_continue_on_nonempty (f : Nat → ExecResult) :
    ∀ fuel pages acc, fuel + pages = 10 →
      ∀ j rows, pages ≤ j →
      j < (strategy1Loop f fuel (BATCH_SIZE * pages) acc pages).2 →
      f (BATCH_SIZE * j) = ExecResult.ok rows →
      normalizeRows rows ≠ [] →
      BATCH_SIZE * (j + 1) < 2000 →
      j + 1 < (strategy1Loop f fuel (BATCH_SIZE * pages) acc pages).2 := by
  intro fuel
  induction fuel with
  | zero =>
    intro pages acc hinv j rows hpj hj _ _ _
    have hj2 : j < pages := hj
    omega
  | succ n ih =>
    intro pages acc hinv j rows hpj hj hf hne hcapj
    have hB : BATCH_SIZE = 200 := rfl
    cases hfp : f (BATCH_SIZE * pages) with
    | queryFailure m =>
      have hb : fetchNotablePaintingsBatch f (BATCH_SIZE * pages) = Except.error m := by
        rw [fetchNotablePaintingsBatch, hfp]
      simp only [strategy1Loop, hb] at hj ⊢
      have hj2 : j < pages + 1 := hj
      have hjp : j = pages := by omega
      subst hjp
      exact ExecResult.noConfusion (hf.symm.trans hfp)
    | ok rows0 =>
      have hb : fetchNotablePaintingsBatch f (BATCH_SIZE * pages) =
          Except.ok (normalizeRows rows0) := by
        rw [fetchNotablePaintingsBatch, hfp]
      by_cases hem0 : normalizeRows rows0 = []
      · simp only [strategy1Loop, hb, if_pos hem0] at hj ⊢
        have hj2 : j < pages + 1 := hj
        have hjp : j = pages := by omega
        subst hjp
        have he : rows = rows0 := ExecResult.ok.inj (hf.symm.trans hfp)
        rw [he] at hne
        exact absurd hem0 hne
      · by_cases hcap : 2000 ≤ BATCH_SIZE * pages + BATCH_SIZE
        · simp only [strategy1Loop, hb, if_neg hem0, if_pos hcap] at hj ⊢
          have hj2 : j < pages + 1 := hj
          have hjp : j = pages := by omega
          subst hjp
          rw [hB] at hcap hcapj
          exact absurd hcapj (by omega)
        · have e : BATCH_SIZE * pages + BATCH_SIZE = BATCH_SIZE * (pages + 1) := by
            rw [Nat.mul_succ]
          simp only [strategy1Loop, hb, if_neg hem0, if_neg hcap] at hj ⊢
          rw [e] at hj ⊢
          by_cases hjp : j = pages
          · subst hjp
            have h1n : 1 ≤ n := by
              rw [hB] at hcapj
              omega
            have hmore := strategy1Loop_pages_succ_le f n (BATCH_SIZE * (j + 1))
              (acc ++ normalizeRows rows0) (j + 1) h1n
            omega
          · exact ih (pages + 1) (acc ++ normalizeRows rows0) (by omega) j rows
              (by omega) hj hf hne hcapj

/-- Claim C2 (amended): in every strategy-1 run, for EVERY page it
requests: a page whose POST-NORMALIZATION batch is empty — including a
non-empty raw batch entirely rejected by the Normalizer, and a genuinely
empty raw batch, whose normalization is empty — is the run's final page
request; and a page some of whose rows survive normalization is followed
by a request at the next offset, unless the 2000-offset safety cap has
been reached (a query failure likewise ends the run).  The loop's
`if not batch: break` tests the normalized list, not the raw one.  Page
`j` (0-based) is requested at `OFFSET = BATCH_SIZE * j`. -/
theorem pagination_stops_iff_normalized_empty (f : Nat → ExecResult) :
    (∀ j rows, j < (strategy1 f).2 →
        f (BATCH_SIZE * j) = ExecResult.ok rows →
        normalizeRows rows = [] →
        (strategy1 f).2 = j + 1) ∧
    (∀ j rows, j < (strategy1 f).2 →
        f (BATCH_SIZE * j) = ExecResult.ok rows →
        normalizeRows rows ≠ [] →
        BATCH_SIZE * (j + 1) < 2000 →
        j + 1 < (strategy1 f).2) := by
  constructor
  · intro j rows hj hf hem
    exact strategy1Loop_stop_on_empty f 10 0 [] j rows (Nat.zero_le j) hj hf hem
  · intro j rows hj hf hne hcapj
    exact strategy1Loop_continue_on_nonempty f 10 0 [] rfl j rows (Nat.zero_le j)
      hj hf hne hcapj

/-- Witness for `pagination_stops_iff_normalized_empty`, exercising both
halves: a raw page filtered away in full ends the run after its request
(one page in total), and a page with a surviving row is followed by a
second request. -/
theorem pagination_stops_iff_normalized_empty_witness :
    (strategy1 envAllQid).2 = 0 + 1 ∧ 0 + 1 < (strategy1 envOutOfRange).2 :=
  ⟨(pagination_stops_iff_normalized_empty envAllQid).1 0 [rowQidOnly]
      (by decide) rfl (by decide),
   (pagination_stops_iff_normalized_empty envOutOfRange).2 0 [rowOutOfRange]
      (by decide) (by decide) (by decide) (by decide)⟩

/-- Claim C9: when the two strategies together produce zero records,
`fetch_all_artworks` returns (does not raise) the empty but schema-valid
frame — all 8 declared columns present, zero rows — and that is the only
possible outcome. -/
theorem empty_harvest_returns_schema_valid_frame (f1 f2 : Nat → ExecResult)
    (h : fetchAllRows f1 f2 = []) :
    FetchAllArtworksOutcome f1 f2 ⟨schemaCols, []⟩ ∧
    (∀ ds, FetchAllArtworksOutcome f1 f2 ds →
      ds.columns = ["painter", "painting", "museum", "city", "country",
                    "lat", "lon", "wikipedia_url"] ∧
      ds.rows = []) := by
  constructor
  · exact Or.inl ⟨h, rfl⟩
  · intro ds hds
    cases hds with
    | inl hl =>
      rw [hl.2]
      exact ⟨rfl, rfl⟩
    | inr hr =>
      exact absurd h hr.1

/-- Witness for `empty_harvest_returns_schema_valid_frame`: both strategy
environments answer every page with zero rows. -/
theorem empty_harvest_returns_schema_valid_frame_witness :
    FetchAllArtworksOutcome envNoRows envNoRows ⟨schemaCols, []⟩ :=
  (empty_harvest_returns_schema_valid_frame envNoRows envNoRows (by decide)).1

/-! ## General lemmas about the normalizer -/

/-- `_parse_coordinates` returns either two absent or two present values,
never one without the other. -/
theorem parseCoordinates_cases (o : Option String) :
    parseCoordinates o = (none, none) ∨
    ∃ la lo, parseCoordinates o = (some la, some lo) := by
  cases o with
  | none => exact Or.inl rfl
  | some s =>
    by_cases hs : s.data = []
    · left
      simp [parseCoordinates, hs]
    · cases hm : matchPointGroups s with
      | none =>
        left
        simp [parseCoordinates, hs, hm]
      | some g =>
        obtain ⟨g1, g2⟩ := g
        cases h1 : pyFloat g1 with
        | none =>
          left
          simp [parseCoordinates, hs, hm, h1]
        | some lon =>
          cases h2 : pyFloat g2 with
          | none =>
            left
            simp [parseCoordinates, hs, hm, h1, h2]
          | some lat =>
            right
            exact ⟨lat, lon, by simp [parseCoordinates, hs, hm, h1, h2]⟩

/-- A record built by the normalizer carries exactly the parsed coordinate
pair of its raw row. -/
theorem normalizeRow_coords (row : RawRow) (rec : ArtworkRecord)
    (h : normalizeRow row = some rec) :
    rec.lat = (parseCoordinates row.coords).1 ∧
    rec.lon = (parseCoordinates row.coords).2 := by
  simp only [normalizeRow] at h
  split at h
  · exact absurd h (by simp)
  · cases h
    exact ⟨rfl, rfl⟩

/-- Claim C10: in every record either harvesting strategy's batch fetcher
produces, the latitude is present exactly when the longitude is — the
coordinates are set as a pair or absent as a pair. -/
theorem strategy_records_lat_lon_paired (f : Nat → ExecResult) (offset : Nat)
    (recs : List ArtworkRecord)
    (h : fetchNotablePaintingsBatch f offset = Except.ok recs ∨
         fetchMuseumPaintingsBatch f offset = Except.ok recs) :
    ∀ rec ∈ recs, ((rec.lat).isSome ↔ (rec.lon).isSome) := by
  have hrows : ∃ rows, recs = normalizeRows rows := by
    cases h with
    | inl h1 =>
      cases hf : f offset with
      | ok rows =>
        refine ⟨rows, ?_⟩
        rw [fetchNotablePaintingsBatch, hf] at h1
        exact (Except.ok.inj h1).symm
      | queryFailure n =>
        rw [fetchNotablePaintingsBatch, hf] at h1
        exact absurd h1 (by simp)
    | inr h2 =>
      cases hf : f offset with
      | ok rows =>
        refine ⟨rows, ?_⟩
        rw [fetchMuseumPaintingsBatch, hf] at h2
        exact (Except.ok.inj h2).symm
      | queryFailure n =>
        rw [fetchMuseumPaintingsBatch, hf] at h2
        exact absurd h2 (by simp)
  obtain ⟨rows, hr⟩ := hrows
  subst hr
  intro rec hrec
  obtain ⟨row, _, hnorm⟩ := List.mem_filterMap.mp hrec
  obtain ⟨hlat, hlon⟩ := normalizeRow_coords row rec hnorm
  rcases parseCoordinates_cases row.coords with hc | ⟨la, lo, hc⟩
  · rw [hlat, hlon, hc]
  · rw [hlat, hlon, hc]
    exact Iff.rfl

/-- Witness for `strategy_records_lat_lon_paired` at the concrete record
produced from a one-row page with coordinates present. -/
theorem strategy_records_lat_lon_paired_witness :
    ((recInRange.lat).isSome ↔ (recInRange.lon).isSome) :=
  strategy_records_lat_lon_paired (fun _ => ExecResult.ok [rowInRange]) 0
    (normalizeRows [rowInRange]) (Or.inl rfl) recInRange (by decide)

/-- Any property holding of every normalized record of every successful
page, and of the accumulator, holds of everything the pagination loop
accumulates. -/
theorem strategy1Loop_mem (f : Nat → ExecResult) (P : ArtworkRecord → Prop)
    (hP : ∀ off rows, f off = ExecResult.ok rows →
      ∀ rec ∈ normalizeRows rows, P rec) :
    ∀ fuel offset acc pages, (∀ rec ∈ acc, P rec) →
      ∀ rec ∈ (strategy1Loop f fuel offset acc pages).1, P rec := by
  intro fuel
  induction fuel with
  | zero =>
    intro offset acc pages hacc
    exact hacc
  | succ n ih =>
    intro offset acc pages hacc
    cases hf : f offset with
    | queryFailure m =>
      have hb : fetchNotablePaintingsBatch f offset = Except.error m := by
        rw [fetchNotablePaintingsBatch, hf]
      simp only [strategy1Loop, hb]
      exact hacc
    | ok rows =>
      have hb : fetchNotablePaintingsBatch f offset = Except.ok (normalizeRows rows) := by
        rw [fetchNotablePaintingsBatch, hf]
      have hext : ∀ rec ∈ acc ++ normalizeRows rows, P rec := by
        intro rec hrec
        rcases List.mem_append.mp hrec with hl | hr
        · exact hacc rec hl
        · exact hP offset rows hf rec hr
      by_cases hempty : normalizeRows rows = []
      · simp only [strategy1Loop, hb, if_pos hempty]
        exact hacc
      · by_cases hcap : 2000 ≤ offset + BATCH_SIZE
        · simp only [strategy1Loop, hb, if_neg hempty, if_pos hcap]
          exact hext
        · simp only [strategy1Loop, hb, if_neg hempty, if_neg hcap]
          exact ih (offset + BATCH_SIZE) (acc ++ normalizeRows rows) (pages + 1) hext

/-- The phase-2 analogue over the sample-offset fold. -/
theorem strategy2_mem (f : Nat → ExecResult) (P : ArtworkRecord → Prop)
    (hP : ∀ off rows, f off = ExecResult.ok rows →
      ∀ rec ∈ normalizeRows rows, P rec) :
    ∀ rec ∈ strategy2 f, P rec := by
  have hfold : ∀ (l : List Nat) (acc : List ArtworkRecord),
      (∀ rec ∈ acc, P rec) →
      ∀ rec ∈ l.foldl (strategy2Step f) acc, P rec := by
    intro l
    induction l with
    | nil =>
      intro acc hacc
      exact hacc
    | cons off offs ih =>
      intro acc hacc
      have hstep : ∀ rec ∈ strategy2Step f acc off, P rec := by
        intro rec hrec
        cases hf : f off with
        | queryFailure m =>
          have hb : fetchMuseumPaintingsBatch f off = Except.error m := by
            rw [fetchMuseumPaintingsBatch, hf]
          simp only [strategy2Step, hb] at hrec
          exact hacc rec hrec
        | ok rows =>
          have hb : fetchMuseumPaintingsBatch f off = Except.ok (normalizeRows rows) := by
            rw [fetchMuseumPaintingsBatch, hf]
          simp only [strategy2Step, hb] at hrec
          by_cases hempty : normalizeRows rows = []
          · rw [if_pos hempty] at hrec
            exact hacc rec hrec
          · rw [if_neg hempty] at hrec
            rcases List.mem_append.mp hrec with hl | hr
            · exact hacc rec hl
            · exact hP off rows hf rec hr
      exact ih (strategy2Step f acc off) hstep
  intro rec hrec
  exact hfold SAMPLE_OFFSETS [] (by intro rec hrec; cases hrec) rec hrec

/-- Any property of every normalized record of every successful page of
either strategy holds of the whole harvested working set. -/
theorem fetchAllRows_mem (f1 f2 : Nat → ExecResult) (P : ArtworkRecord → Prop)
    (h1 : ∀ off rows, f1 off = ExecResult.ok rows →
      ∀ rec ∈ normalizeRows rows, P rec)
    (h2 : ∀ off rows, f2 off = ExecResult.ok rows →
      ∀ rec ∈ normalizeRows rows, P rec) :
    ∀ rec ∈ fetchAllRows f1 f2, P rec := by
  intro rec hrec
  rcases List.mem_append.mp hrec with hl | hr
  · exact strategy1Loop_mem f1 P h1 10 0 [] 0 (by intro rec hrec; cases hrec) rec hl
  · exact strategy2_mem f2 P h2 rec hr

/-- Claim C6 (amended): the pipeline performs no range validation of
coordinates — a record's lat/lon are exactly the values parsed from the
upstream geometry string.  Consequently the ranges lat in [-90, 90] and
lon in [-180, 180] hold on the harvested working set precisely under the
assumption that every upstream geometry that parses carries in-range
values (true of real Wikidata P625 data, but not enforced by the code). -/
theorem harvested_coords_bounded_by_upstream (f1 f2 : Nat → ExecResult)
    (h : ∀ off rows row,
      (f1 off = ExecResult.ok rows ∨ f2 off = ExecResult.ok rows) →
      row ∈ rows → ∀ la lo : ℚ,
        parseCoordinates row.coords = (some la, some lo) →
        (-90 ≤ la ∧ la ≤ 90 ∧ -180 ≤ lo ∧ lo ≤ 180)) :
    ∀ rec ∈ fetchAllRows f1 f2,
      (∀ la, rec.lat = some la → -90 ≤ la ∧ la ≤ 90) ∧
      (∀ lo, rec.lon = some lo → -180 ≤ lo ∧ lo ≤ 180) := by
  have key : ∀ off rows,
      (f1 off = ExecResult.ok rows ∨ f2 off = ExecResult.ok rows) →
      ∀ rec ∈ normalizeRows rows,
        (∀ la, rec.lat = some la → -90 ≤ la ∧ la ≤ 90) ∧
        (∀ lo, rec.lon = some lo → -180 ≤ lo ∧ lo ≤ 180) := by
    intro off rows hor rec hrec
    obtain ⟨row, hrow, hnorm⟩ := List.mem_filterMap.mp hrec
    obtain ⟨hlat, hlon⟩ := normalizeRow_coords row rec hnorm
    rcases parseCoordinates_cases row.coords with hc | ⟨la, lo, hc⟩
    · constructor
      · intro la hla
        rw [hlat, hc] at hla
        exact absurd hla (by simp)
      · intro lo hlo
        rw [hlon, hc] at hlo
        exact absurd hlo (by simp)
    · have hb := h off rows row hor hrow la lo hc
      constructor
      · intro la2 hla2
        rw [hlat, hc] at hla2
        have h3 : some la = some la2 := hla2
        injection h3 with h4
        subst h4
        exact ⟨hb.1, hb.2.1⟩
      · intro lo2 hlo2
        rw [hlon, hc] at hlo2
        have h3 : some lo = some lo2 := hlo2
        injection h3 with h4
        subst h4
        exact ⟨hb.2.2.1, hb.2.2.2⟩
  exact fetchAllRows_mem f1 f2 _
    (fun off rows hf => key off rows (Or.inl hf))
    (fun off rows hf => key off rows (Or.inr hf))

/-- Witness for `harvested_coords_bounded_by_upstream`: the record
harvested from the in-range geometry `Point(2.2 48.8)` is in range. -/
theorem harvested_coords_bounded_by_upstream_witness :
    (∀ la, recInRange.lat = some la → -90 ≤ la ∧ la ≤ 90) ∧
    (∀ lo, recInRange.lon = some lo → -180 ≤ lo ∧ lo ≤ 180) := by
  refine harvested_coords_bounded_by_upstream
    (fun _ => ExecResult.ok [rowInRange]) envNoRows ?_ recInRange (by decide)
  intro off rows row hor hrow la lo hp
  cases hor with
  | inl h1 =>
    have h2 : ExecResult.ok [rowInRange] = ExecResult.ok rows := h1
    injection h2 with h3
    subst h3
    have h4 : row = rowInRange := List.mem_singleton.mp hrow
    subst h4
    have h5 : parseCoordinates rowInRange.coords =
        (some (mkRat 244 5), some (mkRat 11 5)) := by decide
    rw [h5] at hp
    injection hp with hpa hpb
    injection hpa with hpa2
    injection hpb with hpb2
    subst hpa2
    subst hpb2
    refine ⟨by decide, by decide, by decide, by decide⟩
  | inr h1 =>
    have h2 : ExecResult.ok [] = ExecResult.ok rows := h1
    injection h2 with h3
    subst h3
    cases hrow

/-! ## The rejection predicate, characterized -/

/-- Removing the hyphens and asking for all-digits is the same as asking
that every character be a digit or a hyphen. -/
theorem filter_hyphen_all_digit (cs : List Char) :
    ((cs.filter (fun x => !(x == '-'))).all Char.isDigit) =
      cs.all (fun x => x.isDigit || x == '-') := by
  induction cs with
  | nil => rfl
  | cons c cs ih =>
    by_cases hc : c = '-'
    · subst hc
      simp [List.filter_cons, List.all_cons, ih]
    · have hb : (c == '-') = false := by
        simp [hc]
      by_cases hd : c.isDigit = true
      · simp [List.filter_cons, hb, List.all_cons, hd, ih]
      · have hd2 : c.isDigit = false := by
          simp [Bool.not_eq_true] at hd
          exact hd
        simp [List.filter_cons, hb, List.all_cons, hd2]

/-- Python's `label[1:].replace("-", "").isdigit()` is the same as: every
character of the tail is a digit or a hyphen, and at least one is a
digit. -/
theorem pyIsdigit_filter_eq (cs : List Char) :
    pyIsdigit (cs.filter (fun x => !(x == '-'))) =
      (cs.all (fun x => x.isDigit || x == '-') && cs.any Char.isDigit) := by
  induction cs with
  | nil => rfl
  | cons c cs ih =>
    by_cases hc : c = '-'
    · subst hc
      simpa [pyIsdigit, List.filter_cons, List.all_cons, List.any_cons] using ih
    · have hb : (c == '-') = false := by
        simp [hc]
      by_cases hd : c.isDigit = true
      · simp [pyIsdigit, List.filter_cons, hb, List.all_cons, List.any_cons, hd,
          filter_hyphen_all_digit, Bool.or_comm]
        congr 1
      · have hd2 : c.isDigit = false := by
          simp [Bool.not_eq_true] at hd
          exact hd
        simp [pyIsdigit, List.filter_cons, hb, List.all_cons, List.any_cons, hd2]

/-- `_is_qid` agrees with the corrected placeholder pattern on every
label. -/
theorem isQid_eq_amendedQid (label : String) :
    isQid label = amendedQid label := by
  rw [isQid, amendedQid]
  cases label.toList with
  | nil => rfl
  | cons c rest =>
    dsimp only
    rw [pyIsdigit_filter_eq]

/-- Claim C4 (amended): the normalizer rejects a raw row exactly when one
of the painter/painting/museum labels is empty or starts with `Q` followed
only by digits and hyphens with at least one digit (`^Q[0-9-]*$` with one
or more digits).  A `Q` followed by hyphens alone — which the spec pattern
`^Q[0-9-]+$` matches — is KEPT, not rejected. -/
theorem normalize_rejects_iff_amended_pattern (row : RawRow) :
    normalizeRow row = none ↔
      (amendedQid ((row.painterLabel).getD "") = true ∨
       amendedQid ((row.paintingLabel).getD "") = true ∨
       amendedQid ((row.museumLabel).getD "") = true) := by
  simp only [normalizeRow, ← isQid_eq_amendedQid]
  by_cases h : (isQid ((row.painterLabel).getD "") ||
      isQid ((row.paintingLabel).getD "") ||
      isQid ((row.museumLabel).getD "")) = true
  · simp only [h, if_pos]
    simp only [Bool.or_eq_true] at h
    constructor
    · intro _
      tauto
    · intro _
      trivial
  · simp only [h, if_neg]
    constructor
    · intro hn
      exact absurd hn (by simp)
    · intro hq
      exfalso
      apply h
      simp only [Bool.or_eq_true]
      tauto

/-! ## The coordinate matcher, characterized -/

